import Mathlib

/-!
Verification of the CPU-topology detection engine (`src/CpuInfo.cpp`).

This file gives a shallow embedding of the Linux/sysfs code path of
`CpuInfo.cpp` and of the platform-independent aggregate/inference layer,
and proves the testable properties of the specification against it.

Modelling conventions:
* `size_t` / `unsigned long` values are modelled as `Nat`; wherever the C++
  code can overflow (the unit multiplications in `getValue`, the
  `t1 - t0 + 1` range arithmetic and the running counters in
  `parseThreadList` / `parseThreadMap`) the result is reduced `% 2 ^ 64`,
  matching 64-bit `size_t` / `unsigned long` arithmetic on the Linux
  (LP64) target.
* File contents and C++ `std::string` values are modelled as `List Char`.
* C++ exceptions (`std::stoul` throwing `std::invalid_argument` /
  `std::out_of_range`, `std::vector::at` throwing `std::out_of_range`)
  are modelled with `Except`: an `.error` value carries a label naming the
  exception.  The labels stand for the implementation-defined `what()`
  texts.
* The filesystem read surface is a partial map from path to content;
  `none` models a file that cannot be opened.
-/

namespace Primesieve

/-- 2 ^ 64, the modulus of 64-bit `size_t` arithmetic. -/
def U64 : Nat := 2 ^ 64

/-- Largest value of C++ `unsigned long` on the Linux (LP64) target. -/
def ULONG_MAX : Nat := 2 ^ 64 - 1

/-- Label for `std::invalid_argument` thrown by `std::stoul`. -/
def invalidArgMsg : List Char := "stoul: invalid_argument".data

/-- Label for `std::out_of_range` thrown by `std::stoul`. -/
def outOfRangeMsg : List Char := "stoul: out_of_range".data

/-- Label for `std::out_of_range` thrown by `std::vector::at`. -/
def atRangeMsg : List Char := "vector::at: out_of_range".data

/-- C `isspace` for the default locale, as used by `operator>>` and
`std::stoul` (space, \t, \n, \v, \f, \r). -/
def cppIsSpace (c : Char) : Bool := c.toNat = 32 || (9 ≤ c.toNat && c.toNat ≤ 13)

/-- C `isdigit`: decimal digit characters. -/
def isDigitC (c : Char) : Bool := 48 ≤ c.toNat && c.toNat ≤ 57

/-- C `isxdigit`: hexadecimal digit characters. -/
def isHexC (c : Char) : Bool :=
  isDigitC c || (97 ≤ c.toNat && c.toNat ≤ 102) || (65 ≤ c.toNat && c.toNat ≤ 70)

/-- Numeric value of a (hexadecimal) digit character; 0 on other input. -/
def digitVal (c : Char) : Nat :=
  if isDigitC c then c.toNat - 48
  else if 97 ≤ c.toNat && c.toNat ≤ 102 then c.toNat - 87
  else if 65 ≤ c.toNat && c.toNat ≤ 70 then c.toNat - 55
  else 0

/-- Fuel-driven helper for `popcount`; structural in the fuel so that the
kernel can evaluate it. -/
def popcountGo : Nat → Nat → Nat
  | 0, _ => 0
  | _ + 1, 0 => 0
  | fuel + 1, m + 1 => popcountGo fuel ((m + 1) / 2) + (m + 1) % 2

/-- Number of set bits of a natural number.  This is the count computed by
the Kernighan bit-clearing loop `for (; bitmap > 0; threads++) bitmap &=
bitmap - 1;` in `parseThreadMap` (each iteration clears exactly one set
bit). -/
def popcount (n : Nat) : Nat := popcountGo n n

/-- `split` from `CpuInfo.cpp`: tokenization by repeated `std::getline`
with a delimiter.  Interior and leading empty tokens are kept, a trailing
delimiter produces no empty final token (the final `getline` extracts
nothing and fails), and the empty string produces no token. -/
def split : List Char → Char → List (List Char)
  | [], _ => []
  | c :: cs, d =>
    if c = d then [] :: split cs d
    else
      match split cs d with
      | [] => [[c]]
      | t :: ts => (c :: t) :: ts

/-- Whether `std::stoul` would record a minus sign at the head of the
whitespace-stripped input. -/
def signIsNeg : List Char → Bool
  | [] => false
  | c :: _ => c = '-'

/-- Drop the optional single `+`/`-` sign accepted by `std::stoul`. -/
def stripSign : List Char → List Char
  | [] => []
  | c :: rest => if c = '+' || c = '-' then rest else c :: rest

/-- Drop the optional `0x`/`0X` prefix accepted by `std::stoul` in base 16
(only when it is followed by a hexadecimal digit; otherwise `strtoul`
consumes just the leading `0`). -/
def strip0x : Nat → List Char → List Char
  | base, c0 :: c1 :: c2 :: rest =>
    if base = 16 && c0 = '0' && (c1 = 'x' || c1 = 'X') && isHexC c2
    then c2 :: rest
    else c0 :: c1 :: c2 :: rest
  | _, s => s

/-- Digit-class test used by `std::stoul` for the two bases the source
uses (10 and 16). -/
def isBaseDigit (base : Nat) (c : Char) : Bool :=
  if base = 16 then isHexC c else isDigitC c

/-- Model of `std::stoul(str, nullptr, base)`: skip leading whitespace and
an optional sign, take the longest digit run; no digits means
`std::invalid_argument`, a value above `ULONG_MAX` means
`std::out_of_range`, and a minus sign negates modulo 2 ^ 64. -/
def stoul (s : List Char) (base : Nat) : Except (List Char) Nat :=
  let s1 := s.dropWhile cppIsSpace
  let neg := signIsNeg s1
  let s2 := stripSign s1
  let s3 := strip0x base s2
  let digits := s3.takeWhile (isBaseDigit base)
  if digits.isEmpty then .error invalidArgMsg
  else
    let n := digits.foldl (fun a c => a * base + digitVal c) 0
    if ULONG_MAX < n then .error outOfRangeMsg
    else .ok (if neg then (U64 - n % U64) % U64 else n)

deriving instance DecidableEq for Except

/-- `getValue` from `CpuInfo.cpp`, applied to the whitespace-trimmed token
that `getString(filename)` returned (empty when the file was missing):
returns 0 on the empty string, otherwise `stoul` scaled by a K/M/G unit
suffix; the multiplications are `size_t` multiplications (mod 2 ^ 64). -/
def getValue (str : List Char) : Except (List Char) Nat :=
  if str.isEmpty then .ok 0
  else do
    let v0 ← stoul str 10
    let b := str.getLastD ' '
    let v1 := if b = 'K' then (v0 * 1024) % U64 else v0
    let v2 := if b = 'M' then (v1 * (1024 * 1024)) % U64 else v1
    let v3 := if b = 'G' then (v2 * (1024 * 1024 * 1024)) % U64 else v2
    pure v3

/-- Decimal value of a digit string (the value `std::stoul` computes for
it). -/
def decVal (ds : List Char) : Nat := ds.foldl (fun a c => a * 10 + digitVal c) 0

/-- Byte multiplier of a `K`/`M`/`G` unit suffix (1 for no suffix). -/
def unitMult (suffix : List Char) : Nat :=
  if suffix = ['K'] then 1024
  else if suffix = ['M'] then 1024 * 1024
  else if suffix = ['G'] then 1024 * 1024 * 1024
  else 1

/-- `vector<string>::at`: the checked element access used by
`parseThreadList`; out-of-bounds indices throw `std::out_of_range`. -/
def atVec (values : List (List Char)) (i : Nat) : Except (List Char) (List Char) :=
  match values[i]? with
  | some x => .ok x
  | none => .error atRangeMsg

/-- The loop body of `parseThreadList` over the comma-separated tokens: a
token without `-` counts one thread, a `t0-t1` token counts `t1 - t0 + 1`
threads in `size_t` arithmetic. -/
def parseThreadListGo : Nat → List (List Char) → Except (List Char) Nat
  | threads, [] => .ok threads
  | threads, str :: rest => do
    let t ←
      if str.contains '-' then do
        let values := split str '-'
        let s0 ← atVec values 0
        let t0 ← stoul s0 10
        let s1 ← atVec values 1
        let t1 ← stoul s1 10
        pure ((threads + (((t1 + U64 - t0) % U64 + 1) % U64)) % U64)
      else
        pure ((threads + 1) % U64)
    parseThreadListGo t rest

/-- `parseThreadList` from `CpuInfo.cpp`, applied to the trimmed content
token of the thread-list file (empty when the file was missing). -/
def parseThreadList (content : List Char) : Except (List Char) Nat :=
  parseThreadListGo 0 (split content ',')

/-- The inner loop of `parseThreadMap`: for each character, `stoul` in
base 16 and add its popcount (the Kernighan loop) to the running `size_t`
counter. -/
def parseThreadMapChars : Nat → List Char → Except (List Char) Nat
  | threads, [] => .ok threads
  | threads, c :: cs => do
    let bitmap ← stoul [c] 16
    parseThreadMapChars ((threads + popcount bitmap) % U64) cs

/-- The outer loop of `parseThreadMap` over comma-separated fragments. -/
def parseThreadMapGo : Nat → List (List Char) → Except (List Char) Nat
  | threads, [] => .ok threads
  | threads, str :: rest => do
    let t ← parseThreadMapChars threads str
    parseThreadMapGo t rest

/-- `parseThreadMap` from `CpuInfo.cpp`, applied to the trimmed content
token of the thread-map file (empty when the file was missing). -/
def parseThreadMap (content : List Char) : Except (List Char) Nat :=
  parseThreadMapGo 0 (split content ',')

/-- `getThreads` from `CpuInfo.cpp`: the two-source fallback resolver.
Arguments are the trimmed content tokens of the list file and of the map
file. -/
def getThreads (threadList threadMap : List Char) : Except (List Char) Nat := do
  let threads ← parseThreadList threadList
  if threads ≠ 0 then pure threads else parseThreadMap threadMap

/-- Per-character popcount sum of a fragment, as accumulated by the inner
loop of `parseThreadMap`. -/
def charPopSum (cs : List Char) : Nat :=
  (cs.map (fun c => popcount (digitVal c))).sum

/-- Numeric value of a hexadecimal fragment (specification-side notion:
the fragment read as one hexadecimal number). -/
def hexVal (frag : List Char) : Nat :=
  frag.foldl (fun a c => a * 16 + digitVal c) 0

/-- Specification-side count for a thread-map source: the sum of the
popcounts of its comma-separated hexadecimal fragments. -/
def mapPopSum (m : List Char) : Nat :=
  ((split m ',').map (fun f => popcount (hexVal f))).sum

/-- The `"model name"` key searched for in `/proc/cpuinfo`. -/
def modelNameKey : List Char := "model name".data

/-- The extraction a matching `/proc/cpuinfo` line undergoes: the text
after the first colon, with leading spaces stripped (when the text is all
spaces, `find_first_not_of` fails and the spaces are kept). -/
def procExtract (line : List Char) : List Char :=
  match line.findIdx? (fun c => c = ':') with
  | none => []
  | some pos =>
    let name := line.drop (pos + 1)
    let trimmed := name.dropWhile (fun c => c = ' ')
    if trimmed.isEmpty then name else trimmed

/-- One iteration of the `/proc/cpuinfo` loop body: a line whose first 10
characters equal `"model name"` and that contains a colon overwrites the
current cpu name; every other line leaves it unchanged. -/
def procLineUpdate (cpuName line : List Char) : List Char :=
  if line.take modelNameKey.length = modelNameKey then
    match line.findIdx? (fun c => c = ':') with
    | none => cpuName
    | some _ => procExtract line
  else cpuName

/-- `parseProcCpuInfo` from `CpuInfo.cpp`, applied to the content of
`/proc/cpuinfo`: fold the update over the first 10 lines (the loop breaks
when the line counter exceeds 10). -/
def parseProcCpuInfoContent (content : List Char) : List Char :=
  ((split content '\n').take 10).foldl procLineUpdate []

/-- Recognizer for the lines that can set the cpu name: `"model name"`
prefix and a colon present. -/
def matchesModelName (l : List Char) : Bool :=
  l.take modelNameKey.length = modelNameKey && (l.findIdx? (fun c => c = ':')).isSome

/-- Specification-side reading in which the LAST matching line (within the
first 10) determines the cpu name. -/
def specLastMatchCpuName (content : List Char) : List Char :=
  match (((split content '\n').take 10).filter matchesModelName).getLast? with
  | none => []
  | some l => procExtract l

/-- Specification-side reading of the claim in which the FIRST line with
the `"model name"` prefix determines the cpu name. -/
def specFirstMatchCpuName (content : List Char) : List Char :=
  match ((split content '\n').take 10).find?
      (fun l => l.take modelNameKey.length = modelNameKey) with
  | none => []
  | some l => procExtract l

/-- The filesystem read surface: path to content, `none` when the file
cannot be opened. -/
def FileSystem : Type := String → Option (List Char)

/-- First whitespace-delimited token of a string (what `trimmer >> str`
extracts in `getString`). -/
def firstToken (s : List Char) : List Char :=
  (s.dropWhile cppIsSpace).takeWhile (fun c => !cppIsSpace c)

/-- `getString` from `CpuInfo.cpp`: whole-file read returning the first
whitespace-delimited token, or the empty string when the file cannot be
opened. -/
def getString (fs : FileSystem) (filename : String) : List Char :=
  match fs filename with
  | none => []
  | some content => firstToken content

/-- `parseProcCpuInfo` at the filesystem level: empty cpu name when
`/proc/cpuinfo` cannot be opened. -/
def parseProcCpuInfo (fs : FileSystem) : List Char :=
  match fs "/proc/cpuinfo" with
  | none => []
  | some content => parseProcCpuInfoContent content

/-- The raw-topology state owned by `CpuInfo`: the member fields of the
C++ class, with the spelling of the source. -/
structure CpuInfo where
  cpuName_ : List Char
  cpuCores_ : Nat
  cpuThreads_ : Nat
  l1CacheSize_ : Nat
  l2CacheSize_ : Nat
  l3CacheSize_ : Nat
  l2Sharing_ : Nat
  l3Sharing_ : Nat
  threadsPerCore_ : Nat
  error_ : List Char
deriving DecidableEq, Repr

/-- The state set up by the member initializer list of `CpuInfo::CpuInfo`:
every numeric field 0, strings empty. -/
def CpuInfo.initial : CpuInfo :=
  { cpuName_ := [], cpuCores_ := 0, cpuThreads_ := 0, l1CacheSize_ := 0,
    l2CacheSize_ := 0, l3CacheSize_ := 0, l2Sharing_ := 0, l3Sharing_ := 0,
    threadsPerCore_ := 0, error_ := [] }

/-- `CpuInfo::getError`. -/
def CpuInfo.getError (c : CpuInfo) : List Char := c.error_

/-- `CpuInfo::hasCpuCores`. -/
def CpuInfo.hasCpuCores (c : CpuInfo) : Bool :=
  c.cpuCores_ ≥ 1 && c.cpuCores_ ≤ 1 <<< 20

/-- `CpuInfo::hasCpuThreads`. -/
def CpuInfo.hasCpuThreads (c : CpuInfo) : Bool :=
  c.cpuThreads_ ≥ 1 && c.cpuThreads_ ≤ 1 <<< 20

/-- `CpuInfo::hasL1Cache`. -/
def CpuInfo.hasL1Cache (c : CpuInfo) : Bool :=
  c.l1CacheSize_ ≥ 1 <<< 12 && c.l1CacheSize_ ≤ 1 <<< 30

/-- `CpuInfo::hasL2Cache`. -/
def CpuInfo.hasL2Cache (c : CpuInfo) : Bool :=
  c.l2CacheSize_ ≥ 1 <<< 12 && c.l2CacheSize_ ≤ 1 <<< 30

/-- `CpuInfo::hasL3Cache`. -/
def CpuInfo.hasL3Cache (c : CpuInfo) : Bool :=
  c.l3CacheSize_ ≥ 1 <<< 15 && c.l3CacheSize_ ≤ 1 <<< 30

/-- `CpuInfo::hasL2Sharing`. -/
def CpuInfo.hasL2Sharing (c : CpuInfo) : Bool :=
  c.l2Sharing_ ≥ 1 && c.l2Sharing_ ≤ 1 <<< 15

/-- `CpuInfo::hasL3Sharing`. -/
def CpuInfo.hasL3Sharing (c : CpuInfo) : Bool :=
  c.l3Sharing_ ≥ 1 && c.l3Sharing_ ≤ 1 <<< 20

/-- `CpuInfo::hasThreadsPerCore`. -/
def CpuInfo.hasThreadsPerCore (c : CpuInfo) : Bool :=
  c.threadsPerCore_ ≥ 1 && c.threadsPerCore_ ≤ 1 <<< 10

/-- `CpuInfo::hasPrivateL2Cache`. -/
def CpuInfo.hasPrivateL2Cache (c : CpuInfo) : Bool :=
  c.hasL2Sharing && c.hasThreadsPerCore && c.l2Sharing_ ≤ c.threadsPerCore_

/-- `CpuInfo::hasHyperThreading`. -/
def CpuInfo.hasHyperThreading (c : CpuInfo) : Bool :=
  c.hasL2Sharing && c.hasThreadsPerCore && c.l2Sharing_ ≥ 2 &&
    c.l2Sharing_ ≤ c.threadsPerCore_

/-- Attach the current object state to a thrown exception: C++ stack
unwinding leaves the already-assigned members in place, so a failure
carries the partially populated state with it. -/
def mapErr (c : CpuInfo) : Except (List Char) α → Except (List Char × CpuInfo) α
  | .ok v => .ok v
  | .error e => .error (e, c)

/-- Path of the online-CPUs list. -/
def cpusOnlinePath : String := "/sys/devices/system/cpu/online"

/-- Path of CPU 0's thread-siblings list. -/
def threadSiblingsListPath : String :=
  "/sys/devices/system/cpu/cpu0/topology/thread_siblings_list"

/-- Path of CPU 0's thread-siblings bitmap. -/
def threadSiblingsPath : String :=
  "/sys/devices/system/cpu/cpu0/topology/thread_siblings"

/-- Path of CPU 0's cache index 0. -/
def cacheIndex0Path : String := "/sys/devices/system/cpu/cpu0/cache/index0"

/-- Path of CPU 0's cache index 1. -/
def cacheIndex1Path : String := "/sys/devices/system/cpu/cpu0/cache/index1"

/-- Path of CPU 0's cache index 2. -/
def cacheIndex2Path : String := "/sys/devices/system/cpu/cpu0/cache/index2"

/-- Path of CPU 0's cache index 3. -/
def cacheIndex3Path : String := "/sys/devices/system/cpu/cpu0/cache/index3"

/-- One iteration of the cache-index loop of the Linux `CpuInfo::init`:
read level and type of the given cache index and record size (and, for
levels 2 and 3, the sharing count) for data/unified caches. -/
def cacheStep (fs : FileSystem) (path : String) (c : CpuInfo) :
    Except (List Char × CpuInfo) CpuInfo := do
  let level ← mapErr c (getValue (getString fs (path ++ "/level")))
  let typ := getString fs (path ++ "/type")
  let c ←
    if level = 1 ∧ (typ = "Data".data ∨ typ = "Unified".data) then do
      let sz ← mapErr c (getValue (getString fs (path ++ "/size")))
      pure { c with l1CacheSize_ := sz }
    else pure c
  let c ←
    if level = 2 ∧ (typ = "Data".data ∨ typ = "Unified".data) then do
      let sz ← mapErr c (getValue (getString fs (path ++ "/size")))
      let c := { c with l2CacheSize_ := sz }
      let sh ← mapErr c (getThreads (getString fs (path ++ "/shared_cpu_list"))
        (getString fs (path ++ "/shared_cpu_map")))
      pure { c with l2Sharing_ := sh }
    else pure c
  let c ←
    if level = 3 ∧ (typ = "Data".data ∨ typ = "Unified".data) then do
      let sz ← mapErr c (getValue (getString fs (path ++ "/size")))
      let c := { c with l3CacheSize_ := sz }
      let sh ← mapErr c (getThreads (getString fs (path ++ "/shared_cpu_list"))
        (getString fs (path ++ "/shared_cpu_map")))
      pure { c with l3Sharing_ := sh }
    else pure c
  pure c

/-- The Linux `CpuInfo::init`, threading the object state explicitly; an
`.error` result carries the exception label and the state at the throw
point (the cache-index loop is unrolled over indices 0..3). -/
def linuxInit (fs : FileSystem) (c : CpuInfo) :
    Except (List Char × CpuInfo) CpuInfo := do
  let c := { c with cpuName_ := parseProcCpuInfo fs }
  let t ← mapErr c (parseThreadList (getString fs cpusOnlinePath))
  let c := { c with cpuThreads_ := t }
  let tpc ← mapErr c (getThreads (getString fs threadSiblingsListPath)
    (getString fs threadSiblingsPath))
  let c := { c with threadsPerCore_ := tpc }
  let c :=
    if c.hasCpuThreads && c.hasThreadsPerCore then
      { c with cpuCores_ := c.cpuThreads_ / c.threadsPerCore_ }
    else c
  let c ← cacheStep fs cacheIndex0Path c
  let c ← cacheStep fs cacheIndex1Path c
  let c ← cacheStep fs cacheIndex2Path c
  let c ← cacheStep fs cacheIndex3Path c
  pure c

/-- The constructor `CpuInfo::CpuInfo`: start from the member-initializer
state, run the probe inside the try block, and on a thrown exception store
its description in `error_`, keeping the fields assigned before the
throw.  The result type being `CpuInfo` (not `Except`) models that no
exception propagates out of construction. -/
def CpuInfo.construct (probe : CpuInfo → Except (List Char × CpuInfo) CpuInfo) :
    CpuInfo :=
  match probe CpuInfo.initial with
  | .ok c => c
  | .error (e, c) => { c with error_ := e }

/-- A concrete raw-topology state used by the C1 witness: an SMT machine
with 4 cores, 8 threads, 2 threads per core, L2 shared by 2 threads. -/
def smtState : CpuInfo :=
  { cpuName_ := [], cpuCores_ := 4, cpuThreads_ := 8, l1CacheSize_ := 0,
    l2CacheSize_ := 0, l3CacheSize_ := 0, l2Sharing_ := 2, l3Sharing_ := 0,
    threadsPerCore_ := 2, error_ := [] }

/-- A concrete raw-topology state used by the C2 witness: private L2
(l2Sharing = 1, threadsPerCore = 2). -/
def privateL2State : CpuInfo :=
  { cpuName_ := [], cpuCores_ := 0, cpuThreads_ := 0, l1CacheSize_ := 0,
    l2CacheSize_ := 0, l3CacheSize_ := 0, l2Sharing_ := 1, l3Sharing_ := 0,
    threadsPerCore_ := 2, error_ := [] }

/-- A concrete raw-topology state used by the C9 witness
(l2Sharing = 2, threadsPerCore = 4). -/
def sharedSmtState : CpuInfo :=
  { cpuName_ := [], cpuCores_ := 0, cpuThreads_ := 0, l1CacheSize_ := 0,
    l2CacheSize_ := 0, l3CacheSize_ := 0, l2Sharing_ := 2, l3Sharing_ := 0,
    threadsPerCore_ := 4, error_ := [] }

/-- A concrete raw-topology state used by the C7 witness: every field
exactly at the lower bound of its plausibility window. -/
def lowerBoundState : CpuInfo :=
  { cpuName_ := [], cpuCores_ := 1, cpuThreads_ := 1, l1CacheSize_ := 2 ^ 12,
    l2CacheSize_ := 2 ^ 12, l3CacheSize_ := 2 ^ 15, l2Sharing_ := 1,
    l3Sharing_ := 1, threadsPerCore_ := 1, error_ := [] }

/-- A filesystem whose online-CPUs list is the malformed token `"3-"`
(no second range endpoint), with a readable `/proc/cpuinfo`.  Used to
witness the constructor's failure boundary. -/
def fsC3 : FileSystem := fun name =>
  if name = "/proc/cpuinfo" then some "model name : TestCPU".data
  else if name = cpusOnlinePath then some "3-".data
  else none

/-- The state the C3 probe has populated before it fails: only the cpu
name. -/
def partialC3 : CpuInfo :=
  { cpuName_ := "TestCPU".data, cpuCores_ := 0, cpuThreads_ := 0,
    l1CacheSize_ := 0, l2CacheSize_ := 0, l3CacheSize_ := 0, l2Sharing_ := 0,
    l3Sharing_ := 0, threadsPerCore_ := 0, error_ := [] }

/-- A filesystem whose cache index 0 level file holds the unparsable token
`"x"`; everything else is missing. -/
def fsC6 : FileSystem := fun name =>
  if name = cacheIndex0Path ++ "/level" then some "x".data
  else none

/-- A filesystem with a well-formed online list, a malformed
thread-siblings list (`"3-"`), and a fully readable cache index 0 that the
aborted probe never reaches. -/
def fsC10 : FileSystem := fun name =>
  if name = cpusOnlinePath then some "0-7".data
  else if name = threadSiblingsListPath then some "3-".data
  else if name = cacheIndex0Path ++ "/level" then some "1".data
  else if name = cacheIndex0Path ++ "/type" then some "Data".data
  else if name = cacheIndex0Path ++ "/size" then some "32K".data
  else none

/-- The filesystem with no readable file at all. -/
def fsMissingAll : FileSystem := fun _ => none

/-- The overflowing `getValue` input `"17179869184G"`:
2 ^ 34 kibi-giga-scaled is 2 ^ 64, which wraps to 0 in `size_t`. -/
def overflowInput : List Char := "17179869184G".data

/-- A `/proc/cpuinfo` content with two `model name` lines among the first
10 lines. -/
def cpuinfoContentC8 : List Char := "model name : A\nmodel name : B".data

/-- Ten uninteresting-then-matching lines, used to build two contents that
agree on their first 10 lines. -/
def tenLines : List Char :=
  "l1\nl2\nl3\nl4\nl5\nl6\nl7\nl8\nl9\nmodel name : Z".data

/-- `tenLines` followed by an 11th line naming X. -/
def contentA : List Char := tenLines ++ "\nmodel name : X".data

/-- `tenLines` followed by an 11th line naming Y. -/
def contentB : List Char := tenLines ++ "\nmodel name : Y".data

/-!
## Theorems
-/

/-- C1: `hasHyperThreading` returns true iff `hasL2Sharing` and
`hasThreadsPerCore` both hold, `l2Sharing_ ≥ 2` and
`l2Sharing_ ≤ threadsPerCore_`; in particular it is false whenever
`l2Sharing_ < 2`, regardless of every other field. -/
theorem hasHyperThreading_characterization (c : CpuInfo) :
    (c.hasHyperThreading = true ↔
      (c.hasL2Sharing = true ∧ c.hasThreadsPerCore = true ∧
        2 ≤ c.l2Sharing_ ∧ c.l2Sharing_ ≤ c.threadsPerCore_)) ∧
    (c.l2Sharing_ < 2 → c.hasHyperThreading = false) := by
  constructor
  · simp [CpuInfo.hasHyperThreading, CpuInfo.hasL2Sharing,
      CpuInfo.hasThreadsPerCore, Bool.and_eq_true, decide_eq_true_eq]
    omega
  · intro h
    cases hb : c.hasHyperThreading with
    | false => rfl
    | true =>
      exfalso
      simp [CpuInfo.hasHyperThreading, CpuInfo.hasL2Sharing,
        CpuInfo.hasThreadsPerCore, Bool.and_eq_true, decide_eq_true_eq] at hb
      omega

/-- Witness for C1 at a concrete state (l2Sharing = 2, threadsPerCore = 2). -/
theorem hasHyperThreading_characterization_witness :
    (smtState.hasHyperThreading = true ↔
      (smtState.hasL2Sharing = true ∧ smtState.hasThreadsPerCore = true ∧
        2 ≤ smtState.l2Sharing_ ∧
        smtState.l2Sharing_ ≤ smtState.threadsPerCore_)) ∧
    (smtState.l2Sharing_ < 2 → smtState.hasHyperThreading = false) :=
  hasHyperThreading_characterization smtState

/-- C2: `hasPrivateL2Cache` returns true iff `hasL2Sharing` and
`hasThreadsPerCore` both hold and `l2Sharing_ ≤ threadsPerCore_`; in
particular it is false whenever `l2Sharing_` exceeds `threadsPerCore_`. -/
theorem hasPrivateL2Cache_characterization (c : CpuInfo) :
    (c.hasPrivateL2Cache = true ↔
      (c.hasL2Sharing = true ∧ c.hasThreadsPerCore = true ∧
        c.l2Sharing_ ≤ c.threadsPerCore_)) ∧
    (c.threadsPerCore_ < c.l2Sharing_ → c.hasPrivateL2Cache = false) := by
  constructor
  · simp [CpuInfo.hasPrivateL2Cache, CpuInfo.hasL2Sharing,
      CpuInfo.hasThreadsPerCore, Bool.and_eq_true, decide_eq_true_eq]
    omega
  · intro h
    cases hb : c.hasPrivateL2Cache with
    | false => rfl
    | true =>
      exfalso
      simp [CpuInfo.hasPrivateL2Cache, CpuInfo.hasL2Sharing,
        CpuInfo.hasThreadsPerCore, Bool.and_eq_true, decide_eq_true_eq] at hb
      omega

/-- Witness for C2 at a concrete state (l2Sharing = 1, threadsPerCore = 2). -/
theorem hasPrivateL2Cache_characterization_witness :
    (privateL2State.hasPrivateL2Cache = true ↔
      (privateL2State.hasL2Sharing = true ∧
        privateL2State.hasThreadsPerCore = true ∧
        privateL2State.l2Sharing_ ≤ privateL2State.threadsPerCore_)) ∧
    (privateL2State.threadsPerCore_ < privateL2State.l2Sharing_ →
      privateL2State.hasPrivateL2Cache = false) :=
  hasPrivateL2Cache_characterization privateL2State

/-- C9: `hasHyperThreading` is strictly stronger than `hasPrivateL2Cache`:
whenever it returns true, `hasPrivateL2Cache` also returns true, and it
equals `hasPrivateL2Cache` with the single extra conjunct `l2Sharing_ ≥ 2`. -/
theorem hasHyperThreading_implies_hasPrivateL2Cache (c : CpuInfo) :
    (c.hasHyperThreading = true → c.hasPrivateL2Cache = true) ∧
    c.hasHyperThreading = (c.hasPrivateL2Cache && decide (2 ≤ c.l2Sharing_)) := by
  constructor
  · intro h
    rcases (hasHyperThreading_characterization c).1.mp h with ⟨h1, h2, _, h4⟩
    exact (hasPrivateL2Cache_characterization c).1.mpr ⟨h1, h2, h4⟩
  · rw [Bool.eq_iff_iff]
    simp [CpuInfo.hasHyperThreading, CpuInfo.hasPrivateL2Cache,
      CpuInfo.hasL2Sharing, CpuInfo.hasThreadsPerCore, Bool.and_eq_true,
      decide_eq_true_eq]
    omega

/-- Witness for C9 at a concrete state. -/
theorem hasHyperThreading_implies_hasPrivateL2Cache_witness :
    (sharedSmtState.hasHyperThreading = true →
      sharedSmtState.hasPrivateL2Cache = true) ∧
    sharedSmtState.hasHyperThreading =
      (sharedSmtState.hasPrivateL2Cache &&
        decide (2 ≤ sharedSmtState.l2Sharing_)) :=
  hasHyperThreading_implies_hasPrivateL2Cache sharedSmtState

/-- C7: every `has*` plausibility predicate checks its raw field against
exactly the documented window (L1/L2 cache in [2^12, 2^30], L3 cache in
[2^15, 2^30], cores and threads in [1, 2^20], threads-per-core in
[1, 2^10], L2 sharing in [1, 2^15], L3 sharing in [1, 2^20]), each
predicate returns false when its field is 0, and a field value exactly at
the window's lower bound makes the predicate true. -/
theorem has_predicates_windows (c : CpuInfo) :
    (c.hasL1Cache = true ↔ 2 ^ 12 ≤ c.l1CacheSize_ ∧ c.l1CacheSize_ ≤ 2 ^ 30) ∧
    (c.hasL2Cache = true ↔ 2 ^ 12 ≤ c.l2CacheSize_ ∧ c.l2CacheSize_ ≤ 2 ^ 30) ∧
    (c.hasL3Cache = true ↔ 2 ^ 15 ≤ c.l3CacheSize_ ∧ c.l3CacheSize_ ≤ 2 ^ 30) ∧
    (c.hasCpuCores = true ↔ 1 ≤ c.cpuCores_ ∧ c.cpuCores_ ≤ 2 ^ 20) ∧
    (c.hasCpuThreads = true ↔ 1 ≤ c.cpuThreads_ ∧ c.cpuThreads_ ≤ 2 ^ 20) ∧
    (c.hasThreadsPerCore = true ↔
      1 ≤ c.threadsPerCore_ ∧ c.threadsPerCore_ ≤ 2 ^ 10) ∧
    (c.hasL2Sharing = true ↔ 1 ≤ c.l2Sharing_ ∧ c.l2Sharing_ ≤ 2 ^ 15) ∧
    (c.hasL3Sharing = true ↔ 1 ≤ c.l3Sharing_ ∧ c.l3Sharing_ ≤ 2 ^ 20) ∧
    (c.l1CacheSize_ = 0 → c.hasL1Cache = false) ∧
    (c.l2CacheSize_ = 0 → c.hasL2Cache = false) ∧
    (c.l3CacheSize_ = 0 → c.hasL3Cache = false) ∧
    (c.cpuCores_ = 0 → c.hasCpuCores = false) ∧
    (c.cpuThreads_ = 0 → c.hasCpuThreads = false) ∧
    (c.threadsPerCore_ = 0 → c.hasThreadsPerCore = false) ∧
    (c.l2Sharing_ = 0 → c.hasL2Sharing = false) ∧
    (c.l3Sharing_ = 0 → c.hasL3Sharing = false) ∧
    (c.l1CacheSize_ = 2 ^ 12 → c.hasL1Cache = true) ∧
    (c.l2CacheSize_ = 2 ^ 12 → c.hasL2Cache = true) ∧
    (c.l3CacheSize_ = 2 ^ 15 → c.hasL3Cache = true) ∧
    (c.cpuCores_ = 1 → c.hasCpuCores = true) ∧
    (c.cpuThreads_ = 1 → c.hasCpuThreads = true) ∧
    (c.threadsPerCore_ = 1 → c.hasThreadsPerCore = true) ∧
    (c.l2Sharing_ = 1 → c.hasL2Sharing = true) ∧
    (c.l3Sharing_ = 1 → c.hasL3Sharing = true) := by
  refine ⟨?_, ?_, ?_, ?_, ?_, ?_, ?_, ?_, ?_, ?_, ?_, ?_, ?_, ?_, ?_, ?_,
    ?_, ?_, ?_, ?_, ?_, ?_, ?_, ?_⟩ <;>
    simp [CpuInfo.hasL1Cache, CpuInfo.hasL2Cache, CpuInfo.hasL3Cache,
      CpuInfo.hasCpuCores, CpuInfo.hasCpuThreads, CpuInfo.hasThreadsPerCore,
      CpuInfo.hasL2Sharing, CpuInfo.hasL3Sharing, Bool.and_eq_true,
      decide_eq_true_eq] <;>
    omega

/-- Witness for C7 at a concrete state with every field at its window's
lower bound. -/
theorem has_predicates_windows_witness :
    (lowerBoundState.hasL1Cache = true ↔
      2 ^ 12 ≤ lowerBoundState.l1CacheSize_ ∧
        lowerBoundState.l1CacheSize_ ≤ 2 ^ 30) ∧
    (lowerBoundState.hasL2Cache = true ↔
      2 ^ 12 ≤ lowerBoundState.l2CacheSize_ ∧
        lowerBoundState.l2CacheSize_ ≤ 2 ^ 30) ∧
    (lowerBoundState.hasL3Cache = true ↔
      2 ^ 15 ≤ lowerBoundState.l3CacheSize_ ∧
        lowerBoundState.l3CacheSize_ ≤ 2 ^ 30) ∧
    (lowerBoundState.hasCpuCores = true ↔
      1 ≤ lowerBoundState.cpuCores_ ∧ lowerBoundState.cpuCores_ ≤ 2 ^ 20) ∧
    (lowerBoundState.hasCpuThreads = true ↔
      1 ≤ lowerBoundState.cpuThreads_ ∧ lowerBoundState.cpuThreads_ ≤ 2 ^ 20) ∧
    (lowerBoundState.hasThreadsPerCore = true ↔
      1 ≤ lowerBoundState.threadsPerCore_ ∧
        lowerBoundState.threadsPerCore_ ≤ 2 ^ 10) ∧
    (lowerBoundState.hasL2Sharing = true ↔
      1 ≤ lowerBoundState.l2Sharing_ ∧ lowerBoundState.l2Sharing_ ≤ 2 ^ 15) ∧
    (lowerBoundState.hasL3Sharing = true ↔
      1 ≤ lowerBoundState.l3Sharing_ ∧ lowerBoundState.l3Sharing_ ≤ 2 ^ 20) ∧
    (lowerBoundState.l1CacheSize_ = 0 → lowerBoundState.hasL1Cache = false) ∧
    (lowerBoundState.l2CacheSize_ = 0 → lowerBoundState.hasL2Cache = false) ∧
    (lowerBoundState.l3CacheSize_ = 0 → lowerBoundState.hasL3Cache = false) ∧
    (lowerBoundState.cpuCores_ = 0 → lowerBoundState.hasCpuCores = false) ∧
    (lowerBoundState.cpuThreads_ = 0 → lowerBoundState.hasCpuThreads = false) ∧
    (lowerBoundState.threadsPerCore_ = 0 →
      lowerBoundState.hasThreadsPerCore = false) ∧
    (lowerBoundState.l2Sharing_ = 0 → lowerBoundState.hasL2Sharing = false) ∧
    (lowerBoundState.l3Sharing_ = 0 → lowerBoundState.hasL3Sharing = false) ∧
    (lowerBoundState.l1CacheSize_ = 2 ^ 12 →
      lowerBoundState.hasL1Cache = true) ∧
    (lowerBoundState.l2CacheSize_ = 2 ^ 12 →
      lowerBoundState.hasL2Cache = true) ∧
    (lowerBoundState.l3CacheSize_ = 2 ^ 15 →
      lowerBoundState.hasL3Cache = true) ∧
    (lowerBoundState.cpuCores_ = 1 → lowerBoundState.hasCpuCores = true) ∧
    (lowerBoundState.cpuThreads_ = 1 → lowerBoundState.hasCpuThreads = true) ∧
    (lowerBoundState.threadsPerCore_ = 1 →
      lowerBoundState.hasThreadsPerCore = true) ∧
    (lowerBoundState.l2Sharing_ = 1 → lowerBoundState.hasL2Sharing = true) ∧
    (lowerBoundState.l3Sharing_ = 1 → lowerBoundState.hasL3Sharing = true) :=
  has_predicates_windows lowerBoundState

/-- `Except` bind on an `.ok` value. -/
theorem except_bind_ok (a : α) (f : α → Except ε β) :
    (Except.ok a >>= f : Except ε β) = f a := rfl

/-- `Except` bind on an `.error` value. -/
theorem except_bind_error (e : ε) (f : α → Except ε β) :
    ((Except.error e : Except ε α) >>= f) = Except.error e := rfl

/-- A decimal digit character is not whitespace, not a sign, and not one
of the unit-suffix letters. -/
theorem isDigitC_facts {c : Char} (h : isDigitC c = true) :
    cppIsSpace c = false ∧ decide (c = '+') = false ∧
    decide (c = '-') = false ∧ decide (c = 'K') = false ∧
    decide (c = 'M') = false ∧ decide (c = 'G') = false := by
  have h' : 48 ≤ c.toNat ∧ c.toNat ≤ 57 := by
    simpa [isDigitC, Bool.and_eq_true, decide_eq_true_eq] using h
  refine ⟨?_, ?_, ?_, ?_, ?_, ?_⟩
  · simp only [cppIsSpace, Bool.or_eq_false_iff, Bool.and_eq_false_iff,
      decide_eq_false_iff_not]
    omega
  all_goals
    rw [decide_eq_false_iff_not]
    rintro rfl
    exact absurd h (by decide)

/-- A hexadecimal digit character is not whitespace and not a sign. -/
theorem isHexC_facts {c : Char} (h : isHexC c = true) :
    cppIsSpace c = false ∧ decide (c = '+') = false ∧
    decide (c = '-') = false := by
  have h' : ((48 ≤ c.toNat ∧ c.toNat ≤ 57) ∨ (97 ≤ c.toNat ∧ c.toNat ≤ 102)) ∨
      (65 ≤ c.toNat ∧ c.toNat ≤ 70) := by
    simpa [isHexC, isDigitC, Bool.or_eq_true, Bool.and_eq_true,
      decide_eq_true_eq] using h
  refine ⟨?_, ?_, ?_⟩
  · simp only [cppIsSpace, Bool.or_eq_false_iff, Bool.and_eq_false_iff,
      decide_eq_false_iff_not]
    omega
  all_goals
    rw [decide_eq_false_iff_not]
    rintro rfl
    exact absurd h (by decide)

/-- The value of a (hexadecimal) digit character is below 16. -/
theorem digitVal_lt (c : Char) : digitVal c < 16 := by
  unfold digitVal
  split
  · next h =>
    have h' : 48 ≤ c.toNat ∧ c.toNat ≤ 57 := by
      simpa [isDigitC, Bool.and_eq_true, decide_eq_true_eq] using h
    omega
  split
  · next h =>
    have h' : 97 ≤ c.toNat ∧ c.toNat ≤ 102 := by
      simpa [Bool.and_eq_true, decide_eq_true_eq] using h
    omega
  split
  · next h =>
    have h' : 65 ≤ c.toNat ∧ c.toNat ≤ 70 := by
      simpa [Bool.and_eq_true, decide_eq_true_eq] using h
    omega
  omega

/-- `ULONG_MAX` is below the `size_t` modulus. -/
theorem ulong_max_lt_u64 : ULONG_MAX < U64 := by
  unfold ULONG_MAX U64
  norm_num

/-- `takeWhile` runs past a block of elements that all satisfy the
predicate. -/
theorem takeWhile_append_of_all {p : Char → Bool} {l1 : List Char}
    (l2 : List Char) (h : ∀ c ∈ l1, p c = true) :
    (l1 ++ l2).takeWhile p = l1 ++ l2.takeWhile p := by
  induction l1 with
  | nil => simp
  | cons a t ih =>
    simp only [List.cons_append, List.takeWhile_cons, h a (by simp), if_true]
    rw [ih (fun c hc => h c (by simp [hc]))]

/-- In base 10, `strtoul` performs no `0x` prefix stripping. -/
theorem strip0x_base10 (s : List Char) : strip0x 10 s = s := by
  rcases s with _ | ⟨a, _ | ⟨b, _ | ⟨c, t⟩⟩⟩ <;> simp [strip0x]

/-- `stoul` on a nonempty all-digit run followed by non-digit text parses
the digit run. -/
theorem stoul_digits (c : Char) (ds rest : List Char)
    (hc : isDigitC c = true) (hds : ∀ x ∈ ds, isDigitC x = true)
    (hrest : rest.takeWhile isDigitC = [])
    (hrange : decVal (c :: ds) ≤ ULONG_MAX) :
    stoul ((c :: ds) ++ rest) 10 = .ok (decVal (c :: ds)) := by
  obtain ⟨hsp, hplus, hminus, _, _, _⟩ := isDigitC_facts hc
  have h1 : (c :: (ds ++ rest)).dropWhile cppIsSpace = c :: (ds ++ rest) := by
    simp [List.dropWhile_cons, hsp]
  have h2 : signIsNeg (c :: (ds ++ rest)) = false := by
    simp only [signIsNeg]
    exact hminus
  have h3 : stripSign (c :: (ds ++ rest)) = c :: (ds ++ rest) := by
    simp only [stripSign, hplus, hminus, Bool.or_self, Bool.false_eq_true,
      if_false]
  have hbd : isBaseDigit 10 = isDigitC := by
    funext x
    simp [isBaseDigit]
  have h5 : (c :: (ds ++ rest)).takeWhile (isBaseDigit 10) = c :: ds := by
    rw [hbd, List.takeWhile_cons, hc]
    simp only [if_true]
    rw [takeWhile_append_of_all rest hds, hrest, List.append_nil]
  simp only [stoul, List.cons_append, h1, h2, h3, strip0x_base10, h5,
    List.isEmpty_cons, Bool.false_eq_true, if_false, Bool.false_eq_true]
  rw [show (c :: ds).foldl (fun a x => a * 10 + digitVal x) 0 = decVal (c :: ds)
    from rfl]
  rw [if_neg (not_lt.mpr hrange)]

/-- C5 (amended): for every input `"<digits><suffix>"` with suffix in
{"", "K", "M", "G"} whose digit value fits `unsigned long`, `getValue`
returns the digit value times 1 / 1024 / 1024² / 1024³, reduced modulo
2^64 (`size_t` arithmetic); for the empty input it returns 0. -/
theorem getValue_unit_scaling (ds suffix : List Char) (h1 : ds ≠ [])
    (h2 : ∀ x ∈ ds, isDigitC x = true)
    (h3 : suffix = [] ∨ suffix = ['K'] ∨ suffix = ['M'] ∨ suffix = ['G'])
    (h4 : decVal ds ≤ ULONG_MAX) :
    getValue (ds ++ suffix) = .ok ((decVal ds * unitMult suffix) % U64) ∧
    getValue [] = .ok 0 := by
  refine ⟨?_, rfl⟩
  obtain ⟨c, ds', rfl⟩ : ∃ c t, ds = c :: t := by
    cases ds with
    | nil => exact absurd rfl h1
    | cons c t => exact ⟨c, t, rfl⟩
  have hc := h2 c (by simp)
  have hds' : ∀ x ∈ ds', isDigitC x = true := fun x hx => h2 x (by simp [hx])
  have hlt : decVal (c :: ds') < U64 :=
    Nat.lt_of_le_of_lt h4 ulong_max_lt_u64
  rcases h3 with rfl | rfl | rfl | rfl
  · rw [List.append_nil]
    have hst : stoul ((c :: ds') ++ []) 10 = .ok (decVal (c :: ds')) :=
      stoul_digits c ds' [] hc hds' rfl h4
    rw [List.append_nil] at hst
    obtain ⟨L, a, hconc⟩ :
        ∃ L a, (c :: ds') = L ++ [a] := by
      rcases List.eq_nil_or_concat (c :: ds') with h | ⟨L, a, h⟩
      · exact absurd h (by simp)
      · exact ⟨L, a, by simpa [List.concat_eq_append] using h⟩
    have ha : isDigitC a = true := by
      apply h2
      rw [hconc]
      simp
    obtain ⟨_, _, _, haK, haM, haG⟩ := isDigitC_facts ha
    have haK' : a ≠ 'K' := of_decide_eq_false haK
    have haM' : a ≠ 'M' := of_decide_eq_false haM
    have haG' : a ≠ 'G' := of_decide_eq_false haG
    have hlast : (c :: ds').getLastD ' ' = a := by
      rw [hconc]
      exact List.getLastD_concat _ _ _
    simp only [getValue, List.isEmpty_cons, Bool.false_eq_true, if_false,
      hst, except_bind_ok, hlast]
    rw [if_neg haK', if_neg haM', if_neg haG']
    rw [show unitMult ([] : List Char) = 1 from rfl, Nat.mul_one,
      Nat.mod_eq_of_lt hlt]
    rfl
  · have hst : stoul ((c :: ds') ++ ['K']) 10 = .ok (decVal (c :: ds')) :=
      stoul_digits c ds' ['K'] hc hds' (by decide) h4
    have hlast : ((c :: ds') ++ ['K']).getLastD ' ' = 'K' :=
      List.getLastD_concat _ _ _
    simp only [getValue, List.append_eq, List.isEmpty_eq_true,
      List.append_ne_nil_of_right_ne_nil _ (by simp : (['K'] : List Char) ≠ []),
      if_false, hst, except_bind_ok, hlast]
    simp only [unitMult, if_true, reduceIte]
    rfl
  · have hst : stoul ((c :: ds') ++ ['M']) 10 = .ok (decVal (c :: ds')) :=
      stoul_digits c ds' ['M'] hc hds' (by decide) h4
    have hlast : ((c :: ds') ++ ['M']).getLastD ' ' = 'M' :=
      List.getLastD_concat _ _ _
    simp only [getValue, List.append_eq, List.isEmpty_eq_true,
      List.append_ne_nil_of_right_ne_nil _ (by simp : (['M'] : List Char) ≠ []),
      if_false, hst, except_bind_ok, hlast]
    simp only [unitMult, if_true, reduceIte]
    rfl
  · have hst : stoul ((c :: ds') ++ ['G']) 10 = .ok (decVal (c :: ds')) :=
      stoul_digits c ds' ['G'] hc hds' (by decide) h4
    have hlast : ((c :: ds') ++ ['G']).getLastD ' ' = 'G' :=
      List.getLastD_concat _ _ _
    simp only [getValue, List.append_eq, List.isEmpty_eq_true,
      List.append_ne_nil_of_right_ne_nil _ (by simp : (['G'] : List Char) ≠ []),
      if_false, hst, except_bind_ok, hlast]
    simp only [unitMult, if_true, reduceIte]
    rfl

/-- Witness for C5 (amended) at the concrete input `"64K"`. -/
theorem getValue_unit_scaling_witness :
    getValue ("64".data ++ ['K']) =
      .ok ((decVal "64".data * unitMult ['K']) % U64) ∧
    getValue [] = .ok 0 :=
  getValue_unit_scaling "64".data ['K'] (by decide)
    (by decide) (Or.inr (Or.inl rfl)) (by decide)

/-- C5 counterexample: on the input `"17179869184G"` (digit value 2^34),
the code returns 0 — the `size_t` multiplication by 1024³ wraps to
2^64 ≡ 0 — not the mathematical product 2^34 · 1024³ the claim demands. -/
theorem getValue_overflow_counterexample :
    getValue overflowInput = .ok 0 ∧
    getValue overflowInput ≠ .ok (17179869184 * (1024 * 1024 * 1024)) := by
  constructor
  · decide
  · decide

/-- C6 (amended): `getValue` yields 0 on empty input, but on non-empty
input whose leading character is not a decimal digit (nor sign or space)
`stoul` throws `std::invalid_argument`, which escapes `getValue` and is
caught only by the constructor's top-level handler, where it becomes the
stored error text. -/
theorem getValue_error_propagation :
    getValue [] = .ok 0 ∧
    (∀ c s, isDigitC c = false → cppIsSpace c = false → c ≠ '+' → c ≠ '-' →
      getValue (c :: s) = .error invalidArgMsg) ∧
    (CpuInfo.construct (linuxInit fsC6)).getError = invalidArgMsg := by
  refine ⟨rfl, ?_, by decide⟩
  intro c s hdig hsp hplus hminus
  have h1 : (c :: s).dropWhile cppIsSpace = c :: s := by
    simp [List.dropWhile_cons, hsp]
  have h2 : stripSign (c :: s) = c :: s := by
    simp [stripSign, hplus, hminus]
  have hbd : isBaseDigit 10 = isDigitC := by
    funext x
    simp [isBaseDigit]
  have h5 : (c :: s).takeWhile (isBaseDigit 10) = [] := by
    rw [hbd, List.takeWhile_cons, hdig]
    simp
  have hst : stoul (c :: s) 10 = .error invalidArgMsg := by
    simp only [stoul, h1, h2, strip0x_base10, h5, List.isEmpty_nil, if_true]
  simp only [getValue, List.isEmpty_cons, Bool.false_eq_true, if_false, hst,
    except_bind_error]

/-- Witness for C6 (amended) at the concrete input `"abc"`. -/
theorem getValue_error_propagation_witness :
    getValue ('a' :: "bc".data) = .error invalidArgMsg :=
  getValue_error_propagation.2.1 'a' "bc".data (by decide) (by decide)
    (by decide) (by decide)

/-- C6 counterexample: on the non-digit input `"abc"` the code throws
(`std::invalid_argument` escapes `getValue`) instead of returning the 0
sentinel the claim demands. -/
theorem getValue_nondigit_counterexample :
    getValue ("abc".data) = .error invalidArgMsg ∧
    getValue ("abc".data) ≠ .ok 0 := by
  constructor
  · decide
  · decide

/-- `popcountGo` ignores the exact fuel as long as it is sufficient. -/
theorem popcountGo_congr : ∀ f g n, n ≤ f → n ≤ g →
    popcountGo f n = popcountGo g n := by
  intro f
  induction f with
  | zero =>
    intro g n hf _
    interval_cases n
    cases g <;> rfl
  | succ f ih =>
    intro g n hf hg
    cases n with
    | zero => cases g <;> rfl
    | succ m =>
      cases g with
      | zero => omega
      | succ g' =>
        simp only [popcountGo]
        congr 1
        exact ih g' ((m + 1) / 2) (by omega) (by omega)

/-- The defining recurrence of `popcount`. -/
theorem popcount_div2 (n : Nat) : popcount n = popcount (n / 2) + n % 2 := by
  cases n with
  | zero => rfl
  | succ m =>
    show popcountGo (m + 1) (m + 1) = _
    simp only [popcountGo, popcount]
    congr 1
    exact popcountGo_congr m ((m + 1) / 2) ((m + 1) / 2) (by omega) (le_refl _)

/-- `popcount 0 = 0`. -/
theorem popcount_zero : popcount 0 = 0 := rfl

/-- Appending one bit adds it to the popcount. -/
theorem popcount_two_mul_add (x r : Nat) (h : r < 2) :
    popcount (2 * x + r) = popcount x + r := by
  rw [popcount_div2 (2 * x + r)]
  have h1 : (2 * x + r) / 2 = x := by omega
  have h2 : (2 * x + r) % 2 = r := by omega
  rw [h1, h2]

/-- Popcount splits across a shifted-or-ed pair of bit blocks. -/
theorem popcount_mul_pow_add (k a b : Nat) (h : b < 2 ^ k) :
    popcount (a * 2 ^ k + b) = popcount a + popcount b := by
  induction k generalizing b with
  | zero =>
    have hb : b = 0 := by omega
    subst hb
    simp [popcount_zero]
  | succ k ih =>
    have hp : 2 ^ (k + 1) = 2 ^ k * 2 := by ring
    have hb2 : b / 2 < 2 ^ k := by omega
    have hm : a * 2 ^ (k + 1) = (a * 2 ^ k) * 2 := by
      rw [hp, Nat.mul_assoc]
    have heq : a * 2 ^ (k + 1) + b = 2 * (a * 2 ^ k + b / 2) + b % 2 := by
      omega
    rw [heq, popcount_two_mul_add _ _ (by omega), ih _ hb2, popcount_div2 b]
    omega

/-- The popcount of a hexadecimal fragment's value is the sum of the
per-digit popcounts — exactly what the inner loop of `parseThreadMap`
accumulates. -/
theorem popcount_hexVal (frag : List Char) :
    popcount (hexVal frag) = charPopSum frag := by
  suffices h : ∀ a, popcount (frag.foldl (fun x c => x * 16 + digitVal c) a) =
      popcount a + charPopSum frag by
    simpa [hexVal, popcount_zero] using h 0
  induction frag with
  | nil =>
    intro a
    simp [charPopSum]
  | cons c cs ih =>
    intro a
    simp only [List.foldl_cons]
    rw [ih]
    have hstep : popcount (a * 16 + digitVal c) =
        popcount a + popcount (digitVal c) := by
      have h16 : (16 : Nat) = 2 ^ 4 := by norm_num
      rw [h16]
      exact popcount_mul_pow_add 4 a (digitVal c)
        (by have := digitVal_lt c; omega)
    rw [hstep]
    simp only [charPopSum, List.map_cons, List.sum_cons]
    omega

/-- `stoul` in base 16 on a single hexadecimal character yields the
digit's value. -/
theorem stoul_single_hex (c : Char) (h : isHexC c = true) :
    stoul [c] 16 = .ok (digitVal c) := by
  obtain ⟨hsp, hplus, hminus⟩ := isHexC_facts h
  have h1 : ([c] : List Char).dropWhile cppIsSpace = [c] := by
    simp [List.dropWhile_cons, hsp]
  have h2 : signIsNeg [c] = false := by
    simp only [signIsNeg]
    exact hminus
  have h3 : stripSign [c] = [c] := by
    simp only [stripSign, hplus, hminus, Bool.or_self, Bool.false_eq_true,
      if_false]
  have h4 : strip0x 16 [c] = [c] := rfl
  have hbd : isBaseDigit 16 = isHexC := by
    funext x
    simp [isBaseDigit]
  have h5 : ([c] : List Char).takeWhile (isBaseDigit 16) = [c] := by
    rw [hbd, List.takeWhile_cons, h]
    simp
  have hmax : (16 : Nat) ≤ ULONG_MAX := by norm_num [ULONG_MAX]
  have hdv : digitVal c ≤ ULONG_MAX := by
    have := digitVal_lt c
    omega
  simp only [stoul, h1, h2, h3, h4, h5, List.isEmpty_cons, Bool.false_eq_true,
    if_false]
  rw [show ([c] : List Char).foldl (fun a x => a * 16 + digitVal x) 0 =
    digitVal c from by simp]
  rw [if_neg (not_lt.mpr hdv)]

/-- `U64` is positive. -/
theorem u64_pos : 0 < U64 := by norm_num [U64]

/-- The inner `parseThreadMap` loop adds the per-character popcounts,
modulo 2^64. -/
theorem parseThreadMapChars_ok (cs : List Char) : ∀ a, a < U64 →
    (∀ c ∈ cs, isHexC c = true) →
    parseThreadMapChars a cs = .ok ((a + charPopSum cs) % U64) := by
  induction cs with
  | nil =>
    intro a ha _
    simp [parseThreadMapChars, charPopSum, Nat.mod_eq_of_lt ha]
  | cons c cs ih =>
    intro a _ hhex
    have hc := hhex c (by simp)
    simp only [parseThreadMapChars, stoul_single_hex c hc, except_bind_ok]
    rw [ih _ (Nat.mod_lt _ u64_pos) (fun x hx => hhex x (by simp [hx]))]
    rw [Nat.mod_add_mod]
    have hsum : charPopSum (c :: cs) = popcount (digitVal c) + charPopSum cs := by
      simp [charPopSum]
    rw [hsum]
    have : a + popcount (digitVal c) + charPopSum cs =
        a + (popcount (digitVal c) + charPopSum cs) := by omega
    rw [this]

/-- The outer `parseThreadMap` loop adds the per-fragment popcount sums,
modulo 2^64. -/
theorem parseThreadMapGo_ok (frags : List (List Char)) : ∀ a, a < U64 →
    (∀ f ∈ frags, ∀ c ∈ f, isHexC c = true) →
    parseThreadMapGo a frags = .ok ((a + (frags.map charPopSum).sum) % U64) := by
  induction frags with
  | nil =>
    intro a ha _
    simp [parseThreadMapGo, Nat.mod_eq_of_lt ha]
  | cons f frags ih =>
    intro a ha hhex
    simp only [parseThreadMapGo,
      parseThreadMapChars_ok f a ha (hhex f (by simp)), except_bind_ok]
    rw [ih _ (Nat.mod_lt _ u64_pos) (fun g hg => hhex g (by simp [hg]))]
    rw [Nat.mod_add_mod]
    simp only [List.map_cons, List.sum_cons]
    have : a + charPopSum f + (frags.map charPopSum).sum =
        a + (charPopSum f + (frags.map charPopSum).sum) := by omega
    rw [this]

/-- On all-hexadecimal fragments, `parseThreadMap` returns the sum of the
fragments' popcounts, modulo 2^64. -/
theorem parseThreadMap_hex (m : List Char)
    (hhex : ∀ f ∈ split m ',', ∀ c ∈ f, isHexC c = true) :
    parseThreadMap m = .ok (mapPopSum m % U64) := by
  unfold parseThreadMap
  rw [parseThreadMapGo_ok (split m ',') 0 u64_pos hhex, Nat.zero_add]
  have hmap : (split m ',').map charPopSum =
      (split m ',').map (fun f => popcount (hexVal f)) := by
    apply List.map_congr_left
    intro f _
    exact (popcount_hexVal f).symm
  rw [hmap]
  rfl

/-- C4: `getThreads` yields the same count 4 for the comma-list encoding
`"0,1,2,3"` and the range encoding `"0-3"` of the same four sibling
threads, for every map source (the map is not read when the list parse is
nonzero); and whenever the list source parses to zero, the result is the
sum of the popcounts of the comma-separated hexadecimal fragments of the
map source (which fits `size_t` for any physically possible input). -/
theorem getThreads_encodings_and_fallback :
    (∀ m, getThreads ("0,1,2,3".data) m = .ok 4 ∧
      getThreads ("0-3".data) m = .ok 4) ∧
    (∀ l m, parseThreadList l = .ok 0 →
      (∀ f ∈ split m ',', ∀ c ∈ f, isHexC c = true) →
      mapPopSum m < U64 →
      getThreads l m = .ok (mapPopSum m)) := by
  constructor
  · intro m
    exact ⟨rfl, rfl⟩
  · intro l m hl hhex hlt
    simp only [getThreads, hl, except_bind_ok]
    rw [if_neg (fun h => h rfl)]
    rw [parseThreadMap_hex m hhex, Nat.mod_eq_of_lt hlt]

/-- Witness for C4: the two encodings at a concrete map source, and the
fallback on an empty list source with map `"f0,3"` (popcounts 4 and 2). -/
theorem getThreads_encodings_and_fallback_witness :
    getThreads ("0,1,2,3".data) ("f0,3".data) = .ok 4 ∧
    getThreads ("0-3".data) ("f0,3".data) = .ok 4 ∧
    getThreads [] ("f0,3".data) = .ok 6 := by
  refine ⟨(getThreads_encodings_and_fallback.1 ("f0,3".data)).1,
    (getThreads_encodings_and_fallback.1 ("f0,3".data)).2, ?_⟩
  have h := getThreads_encodings_and_fallback.2 [] ("f0,3".data) rfl
    (by decide) (by decide)
  rw [show mapPopSum ("f0,3".data) = 6 from by decide] at h
  exact h

/-- C3: when the probe fails at any point, the constructor catches the
exception, stores its description as the error text returned by
`getError`, and keeps every field value the probe had populated before the
failure (fields the probe never touched keep the 0 defaults of
`CpuInfo.initial`, from which every probe starts).  `CpuInfo.construct`
returning a plain `CpuInfo` — not an `Except` — models that no exception
propagates out of construction. -/
theorem construct_failure_boundary
    (probe : CpuInfo → Except (List Char × CpuInfo) CpuInfo)
    (e : List Char) (s : CpuInfo)
    (h : probe CpuInfo.initial = .error (e, s)) :
    CpuInfo.construct probe = ({ s with error_ := e } : CpuInfo) ∧
    (CpuInfo.construct probe).getError = e ∧
    (CpuInfo.construct probe).cpuName_ = s.cpuName_ ∧
    (CpuInfo.construct probe).cpuCores_ = s.cpuCores_ ∧
    (CpuInfo.construct probe).cpuThreads_ = s.cpuThreads_ ∧
    (CpuInfo.construct probe).l1CacheSize_ = s.l1CacheSize_ ∧
    (CpuInfo.construct probe).l2CacheSize_ = s.l2CacheSize_ ∧
    (CpuInfo.construct probe).l3CacheSize_ = s.l3CacheSize_ ∧
    (CpuInfo.construct probe).l2Sharing_ = s.l2Sharing_ ∧
    (CpuInfo.construct probe).l3Sharing_ = s.l3Sharing_ ∧
    (CpuInfo.construct probe).threadsPerCore_ = s.threadsPerCore_ := by
  simp [CpuInfo.construct, CpuInfo.getError, h]

/-- Witness for C3: the Linux probe on `fsC3` populates the cpu name and
then throws while parsing the malformed online list `"3-"`; construction
returns the partial state with the error text recorded and every other
numeric field still 0. -/
theorem construct_failure_boundary_witness :
    CpuInfo.construct (linuxInit fsC3) =
      ({ partialC3 with error_ := atRangeMsg } : CpuInfo) ∧
    (CpuInfo.construct (linuxInit fsC3)).getError = atRangeMsg ∧
    (CpuInfo.construct (linuxInit fsC3)).cpuName_ = partialC3.cpuName_ ∧
    (CpuInfo.construct (linuxInit fsC3)).cpuCores_ = partialC3.cpuCores_ ∧
    (CpuInfo.construct (linuxInit fsC3)).cpuThreads_ = partialC3.cpuThreads_ ∧
    (CpuInfo.construct (linuxInit fsC3)).l1CacheSize_ = partialC3.l1CacheSize_ ∧
    (CpuInfo.construct (linuxInit fsC3)).l2CacheSize_ = partialC3.l2CacheSize_ ∧
    (CpuInfo.construct (linuxInit fsC3)).l3CacheSize_ = partialC3.l3CacheSize_ ∧
    (CpuInfo.construct (linuxInit fsC3)).l2Sharing_ = partialC3.l2Sharing_ ∧
    (CpuInfo.construct (linuxInit fsC3)).l3Sharing_ = partialC3.l3Sharing_ ∧
    (CpuInfo.construct (linuxInit fsC3)).threadsPerCore_ =
      partialC3.threadsPerCore_ :=
  construct_failure_boundary (linuxInit fsC3) atRangeMsg partialC3 (by decide)

/-- C10: on readable but malformed thread-list contents — a `-` token with
no second id (`"3-"`, where `values.at(1)` throws `std::out_of_range`) or
non-numeric range endpoints (`"a-b"`, where `stoul` throws
`std::invalid_argument`) — `parseThreadList` raises an exception rather
than returning a count, while a missing file (whose `getString` is empty)
silently yields 0.  On `fsC10` the malformed siblings list aborts the
whole probing pass: the readable cache index 0 (level 1, type Data, size
32K) is never recorded, and only the constructor's catch contains the
exception, storing it as the error text. -/
theorem parseThreadList_malformed_aborts :
    parseThreadList ("3-".data) = .error atRangeMsg ∧
    parseThreadList ("a-b".data) = .error invalidArgMsg ∧
    getString fsMissingAll threadSiblingsListPath = [] ∧
    parseThreadList (getString fsMissingAll threadSiblingsListPath) = .ok 0 ∧
    CpuInfo.construct (linuxInit fsC10) =
      ({ CpuInfo.initial with cpuThreads_ := 8, error_ := atRangeMsg } :
        CpuInfo) := by
  refine ⟨by decide, by decide, rfl, rfl, by decide⟩

/-- `procLineUpdate` applies the extraction on a matching line. -/
theorem procLineUpdate_of_matches {l : List Char}
    (h : matchesModelName l = true) (acc : List Char) :
    procLineUpdate acc l = procExtract l := by
  have h' : l.take modelNameKey.length = modelNameKey ∧
      (l.findIdx? (fun c => c = ':')).isSome = true := by
    simpa [matchesModelName, Bool.and_eq_true, decide_eq_true_eq] using h
  obtain ⟨pos, hpos⟩ := Option.isSome_iff_exists.mp h'.2
  unfold procLineUpdate
  rw [if_pos h'.1, hpos]

/-- `procLineUpdate` keeps the accumulator on a non-matching line. -/
theorem procLineUpdate_of_not_matches {l : List Char}
    (h : matchesModelName l = false) (acc : List Char) :
    procLineUpdate acc l = acc := by
  unfold procLineUpdate
  by_cases hpre : l.take modelNameKey.length = modelNameKey
  · rw [if_pos hpre]
    cases hfind : l.findIdx? (fun c => c = ':') with
    | none => rfl
    | some pos =>
      exfalso
      have : matchesModelName l = true := by
        simp [matchesModelName, hpre, hfind]
      rw [h] at this
      exact Bool.false_ne_true this
  · rw [if_neg hpre]

/-- Folding the `/proc/cpuinfo` line update is selecting the LAST
matching line. -/
theorem foldl_procLineUpdate (ls : List (List Char)) : ∀ acc,
    ls.foldl procLineUpdate acc =
      (match (ls.filter matchesModelName).getLast? with
       | none => acc
       | some l => procExtract l) := by
  induction ls with
  | nil =>
    intro acc
    rfl
  | cons l ls ih =>
    intro acc
    rw [List.foldl_cons, ih]
    cases hm : matchesModelName l with
    | false =>
      rw [procLineUpdate_of_not_matches hm]
      simp only [List.filter_cons, hm, Bool.false_eq_true, if_false]
    | true =>
      rw [procLineUpdate_of_matches hm]
      simp only [List.filter_cons, hm, if_true]
      cases hlast : (ls.filter matchesModelName).getLast? with
      | none =>
        have hnil : ls.filter matchesModelName = [] := by
          cases hfil : ls.filter matchesModelName with
          | nil => rfl
          | cons x xs =>
            rw [hfil] at hlast
            exact absurd hlast (by simp)
        rw [hnil]
        rfl
      | some x =>
        obtain ⟨y, ys, hfil⟩ :
            ∃ y ys, ls.filter matchesModelName = y :: ys := by
          cases hfil : ls.filter matchesModelName with
          | nil =>
            rw [hfil] at hlast
            exact absurd hlast (by simp)
          | cons y ys => exact ⟨y, ys, rfl⟩
        rw [hfil] at hlast
        rw [hfil, List.getLast?_cons_cons, hlast]

/-- C8 (amended): the `/proc/cpuinfo` parser examines only the first 10
lines — contents agreeing on their first 10 lines parse identically — and
among lines whose prefix matches `"model name"` (and that contain a
colon), the LAST match within those lines wins: the returned cpu name is
the colon-stripped text of the last such line. -/
theorem parseProcCpuInfo_last_match_wins :
    (∀ content, parseProcCpuInfoContent content = specLastMatchCpuName content) ∧
    (∀ c1 c2, (split c1 '\n').take 10 = (split c2 '\n').take 10 →
      parseProcCpuInfoContent c1 = parseProcCpuInfoContent c2) := by
  constructor
  · intro content
    unfold parseProcCpuInfoContent specLastMatchCpuName
    rw [foldl_procLineUpdate]
  · intro c1 c2 h
    unfold parseProcCpuInfoContent
    rw [h]

/-- Witness for C8 (amended): the two-model-name content resolves to the
last match, and two contents agreeing on their first 10 lines (differing
in line 11) parse identically. -/
theorem parseProcCpuInfo_last_match_wins_witness :
    parseProcCpuInfoContent cpuinfoContentC8 =
      specLastMatchCpuName cpuinfoContentC8 ∧
    parseProcCpuInfoContent contentA = parseProcCpuInfoContent contentB :=
  ⟨parseProcCpuInfo_last_match_wins.1 cpuinfoContentC8,
   parseProcCpuInfo_last_match_wins.2 contentA contentB (by decide)⟩

/-- C8 counterexample: with two `model name` lines (`A` then `B`) among
the first 10 lines, the code returns `"B"` — the last match — while the
claim's first-match reading returns `"A"`. -/
theorem parseProcCpuInfo_first_match_counterexample :
    parseProcCpuInfoContent cpuinfoContentC8 = "B".data ∧
    specFirstMatchCpuName cpuinfoContentC8 = "A".data ∧
    ("B".data : List Char) ≠ "A".data := by
  refine ⟨by decide, by decide, by decide⟩

end Primesieve
